import Mathlib

/-!
Verification development for the imagenes-seo batch image pipeline.

The Python sources (optimizador_seo2.py, optimizador_seo.py,
probar_exiftool.py) are shallowly embedded below.  File and directory
names are modeled as lists of character codes (`Name := List ℕ`), the
filesystem as finite sets of existing file and directory names, and the
side effects of one export as an explicit event trace.  Machine floats
of the Python code are modeled as exact rationals.
-/

namespace ImagenesSeo

/-- Names (path fragments, file names) are character-code sequences. -/
abbrev Name := List ℕ

/-- Character code of the path separator. -/
def sepCode : ℕ := 47

/-- Character code of the space character, stripped by Python str.strip. -/
def spaceCode : ℕ := 32

/-- Join a directory name and a file name, as `out_dir / fname`. -/
def pathJoin (dir fname : Name) : Name := dir ++ sepCode :: fname

/-- Codes of the literal ".jpg" appended to the stem for the primary output. -/
def extJpg : Name := [46, 106, 112, 103]

/-- Codes of the literal ".webp". -/
def extWebp : Name := [46, 119, 101, 98, 112]

/-- Codes of the literal ".png". -/
def extPng : Name := [46, 112, 110, 103]

/-- Codes of the literal ".tif". -/
def extTif : Name := [46, 116, 105, 102]

/-- Codes of the literal ".tiff". -/
def extTiff : Name := [46, 116, 105, 102, 102]

/-- Codes of the literal ".tmp" appended by convert_to_webp for its temporary. -/
def extTmp : Name := [46, 116, 109, 112]

/-- Codes of the literal "-meta.jpg" used by the rename-after-metadata step. -/
def metaJpgSfx : Name := [45, 109, 101, 116, 97, 46, 106, 112, 103]

/-- Python str.strip restricted to spaces: drop leading and trailing blanks. -/
def stripName (s : Name) : Name :=
  ((s.dropWhile (· = spaceCode)).reverse.dropWhile (· = spaceCode)).reverse

/-- Python str.lower on a name: shift upper-case ASCII codes to lower case. -/
def lowerName (s : Name) : Name :=
  s.map (fun c => if 65 ≤ c ∧ c ≤ 90 then c + 32 else c)

/-- Source paths are handled through pathlib accessors (stem, suffix, parent),
so the embedding keeps the three components; `suffix` includes its dot. -/
structure SrcPath where
  dir : Name
  stem : Name
  suffix : Name
deriving DecidableEq, Repr

/-- Full name of a source path, `dir/stem<suffix>`. -/
def SrcPath.fullName (p : SrcPath) : Name := pathJoin p.dir (p.stem ++ p.suffix)

/-! ### PIL image model

Pixels are lists of channel samples, an image is a mode, a size and a
pixel list; `icc` records whether an embedded ICC profile is present
(`img.info["icc_profile"]`).  The common PIL modes used by the sources
are enumerated. -/

/-- PIL image modes handled by the embedding. -/
inductive Mode where
  | RGB | RGBA | L | LA | CMYK
deriving DecidableEq, Repr

/-- Band codes of a mode, as returned by img.getbands(); the alpha band
is character code 65 ("A"). -/
def Mode.bandCodes : Mode → List ℕ
  | .RGB => [82, 71, 66]
  | .RGBA => [82, 71, 66, 65]
  | .L => [76]
  | .LA => [76, 65]
  | .CMYK => [67, 77, 89, 75]

/-- Shallow image: mode, dimensions, row-major pixel list, profile flag. -/
structure Img where
  mode : Mode
  width : ℕ
  height : ℕ
  pixels : List (List ℕ)
  icc : Bool
deriving DecidableEq, Repr

/-- Test from the source, membership of "A" in img.getbands(). -/
def Img.hasAlphaBand (img : Img) : Bool := 65 ∈ img.mode.bandCodes

/-- Per-pixel part of PIL convert("RGB"): luma is replicated, alpha is
dropped, CMYK uses the stored-inverted multiply by K. -/
def convertPixelRGB (m : Mode) (px : List ℕ) : List ℕ :=
  match m, px with
  | .RGB, p => p
  | .RGBA, [r, g, b, _a] => [r, g, b]
  | .L, [v] => [v, v, v]
  | .LA, [v, _a] => [v, v, v]
  | .CMYK, [c, m, y, k] => [c * k / 255, m * k / 255, y * k / 255]
  | _, p => p

/-- Embedding of img.convert("RGB"): RGB mode, converted pixels. -/
def Img.convertRGB (img : Img) : Img :=
  { img with mode := Mode.RGB, pixels := img.pixels.map (convertPixelRGB img.mode) }

/-- Per-pixel compositing over opaque white through the last band as mask,
as performed by bg.paste(img, mask=img.split()[-1]). -/
def compositeWhitePixel (m : Mode) (px : List ℕ) : List ℕ :=
  match m, px with
  | .RGBA, [r, g, b, a] =>
      [(r * a + 255 * (255 - a)) / 255, (g * a + 255 * (255 - a)) / 255,
       (b * a + 255 * (255 - a)) / 255]
  | .LA, [v, a] =>
      let w := (v * a + 255 * (255 - a)) / 255
      [w, w, w]
  | _, p => convertPixelRGB m p

/-- Embedding of force_white_background_if_transparent
(optimizador_seo2.py lines 91-97): if "A" is among the bands, composite
over a white RGB background; otherwise convert to RGB unless the mode
already is RGB. -/
def force_white_background_if_transparent (img : Img) : Img :=
  if img.hasAlphaBand then
    { img with mode := Mode.RGB,
               pixels := img.pixels.map (compositeWhitePixel img.mode) }
  else if img.mode ≠ Mode.RGB then img.convertRGB else img

/-- Embedding of to_srgb (optimizador_seo2.py lines 70-89): CMYK decodes
to RGB first; with ImageCms available and a profile present the pixel
data is transformed to sRGB with output mode RGB (modeled by the plain
RGB conversion); otherwise modes other than RGB/RGBA are converted to
RGB. -/
def to_srgb (hasCms : Bool) (img : Img) : Img :=
  let img1 := if img.mode = Mode.CMYK then img.convertRGB else img
  if hasCms ∧ img1.icc then img1.convertRGB
  else if img1.mode ≠ Mode.RGB ∧ img1.mode ≠ Mode.RGBA then img1.convertRGB
  else img1

/-! ### Resizing (optimizador_seo2.py lines 99-110) -/

/-- Scale factor computed by resize_if_needed: start from 1.0 and take the
minimum with max_w/w when that bound is set and exceeded, then with
max_h/h likewise. -/
def resize_scale (w h : ℕ) (maxW maxH : ℤ) : ℚ :=
  let s : ℚ := 1
  let s := if 0 < maxW ∧ maxW < (w : ℤ) then min s ((maxW : ℚ) / (w : ℚ)) else s
  if 0 < maxH ∧ maxH < (h : ℤ) then min s ((maxH : ℚ) / (h : ℚ)) else s

/-- Embedding of resize_if_needed: unchanged when no bound is set or the
scale stays 1.0; otherwise each dimension becomes max(1, int(d*scale)).
Resampled sample values are not modeled (the claims are about
dimensions); the pixel list is carried through. -/
def resize_if_needed (img : Img) (maxW maxH : ℤ) : Img :=
  if maxW ≤ 0 ∧ maxH ≤ 0 then img
  else
    let s := resize_scale img.width img.height maxW maxH
    if s < 1 then
      { img with
          width := max 1 ((Int.floor (s * (img.width : ℚ))).toNat),
          height := max 1 ((Int.floor (s * (img.height : ℚ))).toNat) }
    else img

/-! ### Filesystem, events and the export step
(optimizador_seo2.py lines 199-237, optimizador_seo.py lines 33-42) -/

/-- On-disk state: the sets of existing file names and directory names. -/
structure FS where
  files : Finset Name
  dirs : Finset Name
deriving DecidableEq

/-- Output container formats passed to Image.save. -/
inductive Fmt where
  | jpeg | webp | png | tiff
deriving DecidableEq, Repr

/-- Filesystem events of one item, in execution order.  `save` is a direct
Image.save to the given path, `saveTmp` a save to a temporary path and
`replace` an os.replace rename. -/
inductive Ev where
  | mkdirEnsure (d : Name)
  | decode (p : Name)
  | save (p : Name) (fmt : Fmt)
  | saveTmp (p : Name) (fmt : Fmt)
  | replace (src dst : Name)
deriving DecidableEq, Repr

/-- Errors raised by export_jpg_and_webp: the overwrite collision
RuntimeError and the UnidentifiedImageError re-raise. -/
inductive ExportErr where
  | collision (p : Name)
  | decodeFail (p : Name)
deriving DecidableEq, Repr

/-- Stem used for the outputs: (final_stem or in_path.stem).strip() or
in_path.stem, with Python falsiness of the empty string. -/
def exportStem (finalStem : Option Name) (inStem : Name) : Name :=
  let s0 := match finalStem with
    | some t => if t = [] then inStem else t
    | none => inStem
  let s1 := stripName s0
  if s1 = [] then inStem else s1

/-- Primary output path out_dir / (stem ++ ".jpg") of one export call. -/
def jpgPathOf (outDir : Name) (finalStem : Option Name) (inStem : Name) : Name :=
  pathJoin outDir (exportStem finalStem inStem ++ extJpg)

/-- Secondary path out_dir / (stem ++ ".webp") of one export call. -/
def webpPathOf (outDir : Name) (finalStem : Option Name) (inStem : Name) : Name :=
  pathJoin outDir (exportStem finalStem inStem ++ extWebp)

/-- Extensions for which the transparency flattening is attempted. -/
def flattenExts : List Name := [extPng, extTif, extTiff, extWebp]

/-- Embedding of export_jpg_and_webp (optimizador_seo2.py lines 199-237).
The decoded image is supplied by the environment (`decoded = none` models
an unreadable source).  It ensures the output directory, computes the
output stem and paths, performs the pre-flight collision check, decodes,
flattens or color-normalizes and resizes the image, converts to RGB and
saves the JPEG directly at the final path; the WEBP path is returned but
not written here (the caller encodes it).  The result carries the final
state and the event trace.  The convert_png_to_jpg parameter is accepted
exactly as in the source, which never reads it in the function body. -/
def export_jpg_and_webp (src : SrcPath) (outDir : Name) (jpgQ webpQ : ℕ)
    (convertPngToJpg forceWhiteBg : Bool)
    (maxW maxH : ℤ) (overwrite : Bool) (finalStem : Option Name)
    (decoded : Option Img) (hasCms : Bool) (fs : FS) :
    Except ExportErr (Name × Name × Img) × FS × List Ev :=
  let fs1 : FS := { fs with dirs := insert outDir fs.dirs }
  let ext := lowerName src.suffix
  let jp := jpgPathOf outDir finalStem src.stem
  let wp := webpPathOf outDir finalStem src.stem
  if overwrite = false ∧ jp ∈ fs1.files then
    (Except.error (ExportErr.collision jp), fs1, [Ev.mkdirEnsure outDir])
  else
    match decoded with
    | none =>
        (Except.error (ExportErr.decodeFail src.fullName), fs1,
         [Ev.mkdirEnsure outDir, Ev.decode src.fullName])
    | some img0 =>
        let img1 := if ext ∈ flattenExts ∧ forceWhiteBg then
            force_white_background_if_transparent img0 else img0
        let img2 := to_srgb hasCms img1
        let img3 := resize_if_needed img2 maxW maxH
        let imgJ := img3.convertRGB
        (Except.ok (jp, wp, imgJ),
         { fs1 with files := insert jp fs1.files },
         [Ev.mkdirEnsure outDir, Ev.decode src.fullName, Ev.save jp Fmt.jpeg])

/-- Embedding of convert_to_webp (optimizador_seo.py lines 33-42): decode
and convert to RGB, build `dir/name.webp`, save to the sibling temporary
`final + ".tmp"`, then one atomic os.replace into the final path. -/
def convert_to_webp (src : SrcPath) (outputBasename : Option Name)
    (img : Img) (fs : FS) : Name × FS × List Ev :=
  let name := match outputBasename with
    | some n => if n = [] then src.stem else n
    | none => src.stem
  let finalP := pathJoin src.dir (name ++ extWebp)
  let tmpP := finalP ++ extTmp
  let _imgRGB := img.convertRGB
  (finalP,
   { fs with files := insert finalP (Finset.erase (insert tmpP fs.files) tmpP) },
   [Ev.decode src.fullName, Ev.saveTmp tmpP Fmt.webp, Ev.replace tmpP finalP])

/-! ### GPS conversion (optimizador_seo2.py lines 163-187) -/

/-- Outcome of one GPS text field after strip and float(): blank, a
non-numeric string, or a parsed number. -/
inductive StrVal where
  | blank
  | nonNumeric
  | num (v : ℚ)
deriving DecidableEq, Repr

/-- True exactly when the field is present and parses as a number. -/
def StrVal.isNum : StrVal → Bool
  | .num _ => true
  | _ => false

/-- Embedding of the gps_ref_val helper: blank or unparsable input yields
(None, None); otherwise the hemisphere reference with the unsigned
magnitude, "N"/"S" for latitude and "E"/"W" for longitude. -/
def gps_ref_val (s : StrVal) (lat : Bool) : Option Char × Option ℚ :=
  match s with
  | .blank => (none, none)
  | .nonNumeric => (none, none)
  | .num v =>
      let ref := if lat then (if 0 ≤ v then 'N' else 'S')
                 else (if 0 ≤ v then 'E' else 'W')
      (some ref, some |v|)

/-- GPS tags appended to the exiftool argument list. -/
inductive GpsTag where
  | latRef (c : Char)
  | latVal (v : ℚ)
  | lonRef (c : Char)
  | lonVal (v : ℚ)
  | altVal (v : ℚ)
deriving DecidableEq, Repr

/-- Embedding of the GPS section of write_metadata_full (lines 174-184):
the four position tags are appended only when both references are
non-None, and the altitude tag only when the altitude string is
non-blank and parses as a float. -/
def gps_args (gpsLat gpsLon gpsAlt : StrVal) : List GpsTag :=
  match gps_ref_val gpsLat true, gps_ref_val gpsLon false with
  | (some la, some lav), (some lo, some lov) =>
      [GpsTag.latRef la, GpsTag.latVal lav, GpsTag.lonRef lo, GpsTag.lonVal lov]
        ++ (match gpsAlt with
            | StrVal.num a => [GpsTag.altVal a]
            | _ => [])
  | _, _ => []

/-! ### Collision-free renaming (optimizador_seo2.py lines 991-998)
and the rename-after-metadata step (lines 956-968) -/

/-- Little-endian decimal digits computed with structural fuel, so that
concrete values reduce in the kernel. -/
def decDigitsAux : ℕ → ℕ → List ℕ
  | 0, _ => []
  | fuel + 1, n => if n = 0 then [] else n % 10 :: decDigitsAux fuel (n / 10)

/-- Little-endian decimal digits of a natural number. -/
def decDigits (n : ℕ) : List ℕ := decDigitsAux n n

/-- Decimal digit characters of a counter value, as produced by the
f-string interpolation of an int. -/
def natName (i : ℕ) : Name := (decDigits i).reverse.map (fun d => 48 + d)

/-- Candidate name `stem_i<suffix>` built by path.with_name(f"{stem}_{i}{suf}");
code 95 is the underscore. -/
def numberedName (stem suf : Name) (i : ℕ) : Name := stem ++ 95 :: (natName i ++ suf)

/-- Part of a name after the last dot of its last component (with the dot),
as Path.suffix; empty when the last component has no dot. -/
def nameSuffix (p : Name) : Name :=
  let brev := p.reverse.takeWhile (· ≠ sepCode)
  if 46 ∈ brev then 46 :: (brev.takeWhile (· ≠ 46)).reverse else []

/-- Name with the suffix of its last component removed, as
path.with_name uses `path.stem`: here the whole path up to the suffix. -/
def nameStem (p : Name) : Name := p.take (p.length - (nameSuffix p).length)

/-- Search loop of App._unique_path: try `stem_i<suf>` for i = 2, 3, ...
until a free name appears; structurally recursive on a fuel that the
caller sizes so that exhaustion is unreachable. -/
def unique_path_aux (fs : Finset Name) (stem suf : Name) : ℕ → ℕ → Name
  | 0, i => numberedName stem suf i
  | fuel + 1, i =>
      let cand := numberedName stem suf i
      if cand ∈ fs then unique_path_aux fs stem suf fuel (i + 1) else cand

/-- Embedding of App._unique_path: the path itself when free, otherwise
the first free numbered candidate starting at counter 2. -/
def unique_path (fs : Finset Name) (p : Name) : Name :=
  if p ∈ fs then
    unique_path_aux fs (nameStem p) (nameSuffix p) (fs.card + 1) 2
  else p

/-- Exiftool invocations the worker can make for one item. -/
inductive ExifStep where
  | cleanJpg | cleanWebp | dpiJpg | dpiWebp | metaJpg | metaWebp
deriving DecidableEq, Repr

/-- Per-item effect environment of the worker: the decoded source image,
whether the WEBP re-encode succeeds, the exit code of each exiftool
step, and whether shutil.move and os.unlink succeed at OS level. -/
structure ItemEnv where
  decoded : Option Img
  webpSaveOk : Bool
  exifCode : ExifStep → ℤ
  moveOk : Bool
  unlinkOk : Bool

/-- Run-wide job options collected from the UI (lines 860-878). -/
structure Job where
  outDir : Name
  jpgQ : ℕ
  webpQ : ℕ
  maxW : ℤ
  maxH : ℤ
  overwrite : Bool
  convertPng : Bool
  forceWhite : Bool
  makeWebp : Bool
  cleanAi : Bool
  setDpi96 : Bool
  renameAfterMeta : Bool
  keepOriginal : Bool
  hasCms : Bool

/-- Diagnostic log lines emitted inside one item (all non-fatal). -/
inductive DiagMsg where
  | webpFailed
  | exifWarn (s : ExifStep)
  | renameFailed
  | deleteFailed
deriving DecidableEq, Repr

/-- Embedding of the rename-after-metadata block of the worker (lines
956-968): compute `final_name-meta.jpg`, disambiguate it through
_unique_path, re-check existence against the overwrite flag (raising if
taken and overwrite is off), unlink an existing target, move the JPEG
there; any exception is caught and logged.  Returns the item's jpg path
after the block, the state and the diagnostics. -/
def rename_after_meta_step (overwrite : Bool) (moveOk : Bool)
    (outDir finalName jpgP : Name) (fs : FS) : Name × FS × List DiagMsg :=
  let target0 := pathJoin outDir (finalName ++ metaJpgSfx)
  let target := unique_path fs.files target0
  if target ∈ fs.files ∧ overwrite = false then
    (jpgP, fs, [DiagMsg.renameFailed])
  else
    let fs1 := if target ∈ fs.files then
        { fs with files := fs.files.erase target } else fs
    if moveOk then
      (target, { fs1 with files := insert target (fs1.files.erase jpgP) }, [])
    else (jpgP, fs1, [DiagMsg.renameFailed])

/-! ### The background worker (optimizador_seo2.py lines 880-986) -/

/-- One work-list entry: the source path and the merged final-name
override (blank when absent). -/
structure Item where
  src : SrcPath
  finalName : Name
deriving DecidableEq, Repr

/-- Diagnostics of one exiftool invocation: a warning when its exit code
is non-zero, nothing otherwise. -/
def exifDiag (env : ItemEnv) (s : ExifStep) : List DiagMsg :=
  if env.exifCode s ≠ 0 then [DiagMsg.exifWarn s] else []

/-- Body of the per-item try block of the worker: export, optional WEBP
encode, optional metadata cleaning, optional DPI setting, metadata
writing (JPEG and, when present, WEBP), optional rename-after-metadata
and optional source deletion.  Returns the success flag, the item's
final jpg path, the state and the diagnostic lines in emission order.
Export failure ends the item as a failure with no diagnostics (the
exception is reported by the caller). -/
def worker_item_core (job : Job) (env : ItemEnv) (it : Item) (fs : FS) :
    Bool × Name × FS × List DiagMsg :=
  let finalName := if it.finalName = [] then it.src.stem else it.finalName
  match export_jpg_and_webp it.src job.outDir job.jpgQ job.webpQ
      job.convertPng job.forceWhite job.maxW job.maxH job.overwrite
      (some finalName) env.decoded job.hasCms fs with
  | (Except.error _, fs1, _) => (false, [], fs1, [])
  | (Except.ok (jpgP, webpP, _img), fs1, _) =>
      let st2 : FS × List DiagMsg :=
        if job.makeWebp then
          if env.webpSaveOk then
            ({ fs1 with files := insert webpP fs1.files }, [])
          else (fs1, [DiagMsg.webpFailed])
        else (fs1, [])
      let fs2 := st2.1
      let webpReal := pathJoin job.outDir (finalName ++ extWebp)
      let dClean : List DiagMsg :=
        if job.cleanAi then
          exifDiag env ExifStep.cleanJpg ++
            (if job.makeWebp ∧ webpReal ∈ fs2.files then
              exifDiag env ExifStep.cleanWebp else [])
        else []
      let dDpi : List DiagMsg :=
        if job.setDpi96 then
          exifDiag env ExifStep.dpiJpg ++
            (if job.makeWebp ∧ webpReal ∈ fs2.files then
              exifDiag env ExifStep.dpiWebp else [])
        else []
      let dMetaJ := exifDiag env ExifStep.metaJpg
      let dMetaW : List DiagMsg :=
        if job.makeWebp ∧ webpReal ∈ fs2.files then
          exifDiag env ExifStep.metaWebp else []
      let ren : Name × FS × List DiagMsg :=
        if job.renameAfterMeta then
          rename_after_meta_step job.overwrite env.moveOk job.outDir
            finalName jpgP fs2
        else (jpgP, fs2, [])
      let jpg2 := ren.1
      let fs3 := ren.2.1
      let del : FS × List DiagMsg :=
        if job.keepOriginal then (fs3, [])
        else if it.src.fullName ∈ fs3.files then
          if env.unlinkOk then
            ({ fs3 with files := fs3.files.erase it.src.fullName }, [])
          else (fs3, [DiagMsg.deleteFailed])
        else (fs3, [])
      (true, jpg2, del.1,
       st2.2 ++ dClean ++ dDpi ++ dMetaJ ++ dMetaW ++ ren.2.2 ++ del.2)

/-- Log lines pushed to the queue by the worker. -/
inductive LogMsg where
  | itemStart (idx : ℕ)
  | diag (d : DiagMsg)
  | itemOk
  | itemError
  | totals (ok fail : ℕ)
deriving DecidableEq, Repr

/-- One worker iteration: the opening line, the try block, the closing
success or error line. -/
def worker_item (job : Job) (env : ItemEnv) (idx : ℕ) (it : Item) (fs : FS) :
    Bool × FS × List LogMsg :=
  let r := worker_item_core job env it fs
  (r.1, r.2.2.1,
   LogMsg.itemStart idx ::
     (r.2.2.2.map LogMsg.diag ++ [if r.1 then LogMsg.itemOk else LogMsg.itemError]))

/-- Worker loop over the remaining items, counting successes and
failures; the stop flag is the run-scoped cancellation event checked
before each item. -/
def worker_run_aux (job : Job) (env : ℕ → ItemEnv) (stop : ℕ → Bool) :
    List Item → ℕ → FS → ℕ × ℕ × List LogMsg × FS
  | [], _, fs => (0, 0, [], fs)
  | it :: rest, idx, fs =>
      if stop idx then (0, 0, [], fs)
      else
        let r := worker_item job (env idx) idx it fs
        let t := worker_run_aux job env stop rest (idx + 1) r.2.1
        ((if r.1 then 1 else 0) + t.1, (if r.1 then 0 else 1) + t.2.1,
         r.2.2 ++ t.2.2.1, t.2.2.2)

/-- Result of one run: counters, the full log and the final state. -/
structure RunOut where
  ok : ℕ
  fail : ℕ
  log : List LogMsg
  fs : FS
deriving DecidableEq

/-- Embedding of the worker function: items are visited in list order
starting at index 1, and the run closes with the aggregate totals. -/
def worker_run (job : Job) (env : ℕ → ItemEnv) (stop : ℕ → Bool)
    (items : List Item) (fs : FS) : RunOut :=
  let t := worker_run_aux job env stop items 1 fs
  { ok := t.1, fail := t.2.1,
    log := t.2.2.1 ++ [LogMsg.totals t.1 t.2.1], fs := t.2.2.2 }

/-- Index of the opening log line of an item, none for other lines. -/
def LogMsg.startIdx : LogMsg → Option ℕ
  | .itemStart i => some i
  | _ => none

/-- Recognizes the per-item success line. -/
def LogMsg.isOkLine : LogMsg → Bool
  | .itemOk => true
  | _ => false

/-- Recognizes the per-item failure line. -/
def LogMsg.isErrLine : LogMsg → Bool
  | .itemError => true
  | _ => false

/-! ### Claim statements that the code refutes, formalized verbatim -/

/-- Claim C1 as stated: on every successful export the encoder writes the
encoded image to a temporary path and a single rename materializes the
final path, so the trace holds a saveTmp and a replace onto the primary
path and no direct save. -/
def c1_claim : Prop :=
  ∀ (src : SrcPath) (outDir : Name) (jpgQ webpQ : ℕ)
    (convertPng forceWhite : Bool) (maxW maxH : ℤ) (overwrite : Bool)
    (finalStem : Option Name) (decoded : Option Img) (hasCms : Bool) (fs : FS),
    (export_jpg_and_webp src outDir jpgQ webpQ convertPng forceWhite maxW maxH
        overwrite finalStem decoded hasCms fs).1.isOk = true →
    ∃ tmp fmt,
      Ev.saveTmp tmp fmt ∈ (export_jpg_and_webp src outDir jpgQ webpQ
          convertPng forceWhite maxW maxH overwrite finalStem decoded hasCms
          fs).2.2
      ∧ Ev.replace tmp (jpgPathOf outDir finalStem src.stem)
          ∈ (export_jpg_and_webp src outDir jpgQ webpQ convertPng forceWhite
              maxW maxH overwrite finalStem decoded hasCms fs).2.2
      ∧ ∀ p f, Ev.save p f ∉ (export_jpg_and_webp src outDir jpgQ webpQ
          convertPng forceWhite maxW maxH overwrite finalStem decoded hasCms
          fs).2.2

/-- Container formats the spec says are preserved for claim C3. -/
def preservedExts : List Name := [extPng, extTif, extTiff, extWebp]

/-- Container format belonging to a lower-cased source extension. -/
def fmtOfExt (ext : Name) : Fmt :=
  if ext = extPng then Fmt.png
  else if ext = extTif ∨ ext = extTiff then Fmt.tiff
  else if ext = extWebp then Fmt.webp
  else Fmt.jpeg

/-- Claim C3 as stated: the primary output format is JPEG except that a
preserved-format source with the PNG-to-JPEG policy disabled keeps its
original container format. -/
def c3_claim : Prop :=
  ∀ (src : SrcPath) (outDir : Name) (jpgQ webpQ : ℕ)
    (convertPng forceWhite : Bool) (maxW maxH : ℤ) (overwrite : Bool)
    (finalStem : Option Name) (decoded : Option Img) (hasCms : Bool) (fs : FS),
    (export_jpg_and_webp src outDir jpgQ webpQ convertPng forceWhite maxW maxH
        overwrite finalStem decoded hasCms fs).1.isOk = true →
    ∀ p f, Ev.save p f ∈ (export_jpg_and_webp src outDir jpgQ webpQ convertPng
        forceWhite maxW maxH overwrite finalStem decoded hasCms fs).2.2 →
      f = (if lowerName src.suffix ∈ preservedExts ∧ convertPng = false
           then fmtOfExt (lowerName src.suffix) else Fmt.jpeg)

/-- Claim C8 as stated: flattening an image with no alpha channel is a
no-op (same mode, size and pixel values). -/
def c8_claim : Prop :=
  ∀ img : Img, img.hasAlphaBand = false →
    force_white_background_if_transparent img = img

/-! ### Concrete sample data used by witnesses and counterexamples -/

/-- Concrete image used by the witnesses: 2000 by 1000, plain RGB. -/
def imgSample : Img :=
  { mode := Mode.RGB, width := 2000, height := 1000, pixels := [], icc := false }

/-- Concrete 3x1000 image for the C10 witness: bounded by maxH = 1 its
scaled width 3/1000 truncates to 0 without the max(1, _) guard. -/
def imgThin : Img :=
  { mode := Mode.RGB, width := 3, height := 1000, pixels := [], icc := false }

/-- Concrete state for the C9 witness: the output directory holds the
produced JPEG and a file already named like the -meta target. -/
def fsTaken : FS :=
  { files := {[111, 47, 97, 46, 106, 112, 103], [111, 47, 97, 45, 109, 101,
      116, 97, 46, 106, 112, 103]}, dirs := {[111]} }

/-- Concrete source path, a PNG file "i/a.png". -/
def srcPng : SrcPath := { dir := [105], stem := [97], suffix := [46, 112, 110, 103] }

/-- Empty filesystem. -/
def fsEmpty : FS := { files := ∅, dirs := ∅ }

/-- Name of the primary output "o/a.jpg" of srcPng into directory "o". -/
def jpgOut : Name := [111, 47, 97, 46, 106, 112, 103]

/-- State where the primary target already exists. -/
def fsWithJpg : FS := { files := {jpgOut}, dirs := {[111]} }

/-- Run options for the sample scenarios: out directory "o", no WEBP
sibling, metadata cleaning and DPI on, no rename-after-metadata, keep
the original, overwrite allowed, bounds unset. -/
def jobSample : Job :=
  { outDir := [111], jpgQ := 86, webpQ := 82, maxW := 0, maxH := 0,
    overwrite := true, convertPng := true, forceWhite := true,
    makeWebp := false, cleanAi := true, setDpi96 := true,
    renameAfterMeta := false, keepOriginal := true, hasCms := false }

/-- Environment where every metadata-tool invocation exits non-zero. -/
def envAllFail : ItemEnv :=
  { decoded := some imgSample, webpSaveOk := true, exifCode := fun _ => 1,
    moveOk := true, unlinkOk := true }

/-- Environment of a fully healthy item. -/
def envOk : ItemEnv :=
  { decoded := some imgSample, webpSaveOk := true, exifCode := fun _ => 0,
    moveOk := true, unlinkOk := true }

/-- Environment whose source cannot be decoded. -/
def envDecodeFail : ItemEnv :=
  { decoded := none, webpSaveOk := true, exifCode := fun _ => 0,
    moveOk := true, unlinkOk := true }

/-- Sample work item for srcPng with no name override. -/
def itemSample : Item := { src := srcPng, finalName := [] }

/-- Concrete 1x1 grayscale image: no alpha channel, mode L. -/
def imgGrayL : Img :=
  { mode := Mode.L, width := 1, height := 1, pixels := [[7]], icc := false }

/-- Batch of three items "i/a.png", "i/b.png", "i/c.png". -/
def itemsTriple : List Item :=
  [{ src := { dir := [105], stem := [97], suffix := extPng }, finalName := [] },
   { src := { dir := [105], stem := [98], suffix := extPng }, finalName := [] },
   { src := { dir := [105], stem := [99], suffix := extPng }, finalName := [] }]

/-- Environments of the triple: the second item is undecodable. -/
def envTriple : ℕ → ItemEnv := fun i => if i = 2 then envDecodeFail else envOk

/-! ### Resize lemmas (claims C4 and C10) -/

/-- Scale factor as the specification words it: the minimum of 1 and the
ratios maxW/w and maxH/h, each ratio taken only when its bound is set. -/
def spec_scale (w h : ℕ) (maxW maxH : ℤ) : ℚ :=
  min (min 1 (if 0 < maxW then (maxW : ℚ) / (w : ℚ) else 1))
      (if 0 < maxH then (maxH : ℚ) / (h : ℚ) else 1)

theorem resize_scale_le_one (w h : ℕ) (maxW maxH : ℤ) :
    resize_scale w h maxW maxH ≤ 1 := by
  unfold resize_scale
  dsimp only
  split <;> split <;> simp [min_le_iff]

theorem resize_scale_step_eq (s : ℚ) (hs : s ≤ 1) (mx : ℤ) (d : ℕ)
    (hd : 1 ≤ d) :
    (if 0 < mx ∧ mx < (d : ℤ) then min s ((mx : ℚ) / (d : ℚ)) else s)
      = min s (if 0 < mx then (mx : ℚ) / (d : ℚ) else 1) := by
  have hd0 : (0 : ℚ) < (d : ℚ) := by exact_mod_cast hd
  by_cases h1 : 0 < mx
  · by_cases h2 : mx < (d : ℤ)
    · simp [h1, h2]
    · have hge : (1 : ℚ) ≤ (mx : ℚ) / (d : ℚ) := by
        rw [le_div_iff₀ hd0, one_mul]
        exact_mod_cast not_lt.mp h2
      simp [h1, h2, min_eq_left (le_trans hs hge)]
  · simp [h1, min_eq_left hs]

theorem resize_scale_eq_spec (w h : ℕ) (maxW maxH : ℤ)
    (hw : 1 ≤ w) (hh : 1 ≤ h) :
    resize_scale w h maxW maxH = spec_scale w h maxW maxH := by
  unfold resize_scale spec_scale
  dsimp only
  rw [resize_scale_step_eq 1 le_rfl maxW w hw]
  exact resize_scale_step_eq _ (le_trans (min_le_left _ _) le_rfl) maxH h hh

theorem resize_scale_mul_le_w (w h : ℕ) (maxW maxH : ℤ)
    (hw : 1 ≤ w) (hpos : 0 < maxW) :
    resize_scale w h maxW maxH * (w : ℚ) ≤ (maxW : ℚ) := by
  have hw0 : (0 : ℚ) < (w : ℚ) := by exact_mod_cast hw
  by_cases hex : maxW < (w : ℤ)
  · have hle : resize_scale w h maxW maxH ≤ (maxW : ℚ) / (w : ℚ) := by
      unfold resize_scale
      dsimp only
      have hc : 0 < maxW ∧ maxW < (w : ℤ) := ⟨hpos, hex⟩
      rw [if_pos hc]
      split
      · exact le_trans (min_le_left _ _) (min_le_right _ _)
      · exact min_le_right _ _
    calc resize_scale w h maxW maxH * (w : ℚ)
        ≤ ((maxW : ℚ) / (w : ℚ)) * (w : ℚ) :=
          mul_le_mul_of_nonneg_right hle (le_of_lt hw0)
      _ = (maxW : ℚ) := div_mul_cancel₀ _ (ne_of_gt hw0)
  · have hwle : (w : ℚ) ≤ (maxW : ℚ) := by exact_mod_cast not_lt.mp hex
    calc resize_scale w h maxW maxH * (w : ℚ)
        ≤ 1 * (w : ℚ) :=
          mul_le_mul_of_nonneg_right (resize_scale_le_one w h maxW maxH)
            (le_of_lt hw0)
      _ = (w : ℚ) := one_mul _
      _ ≤ (maxW : ℚ) := hwle

theorem resize_scale_mul_le_h (w h : ℕ) (maxW maxH : ℤ)
    (hh : 1 ≤ h) (hpos : 0 < maxH) :
    resize_scale w h maxW maxH * (h : ℚ) ≤ (maxH : ℚ) := by
  have hh0 : (0 : ℚ) < (h : ℚ) := by exact_mod_cast hh
  by_cases hex : maxH < (h : ℤ)
  · have hle : resize_scale w h maxW maxH ≤ (maxH : ℚ) / (h : ℚ) := by
      unfold resize_scale
      dsimp only
      have hc : 0 < maxH ∧ maxH < (h : ℤ) := ⟨hpos, hex⟩
      rw [if_pos hc]
      exact min_le_right _ _
    calc resize_scale w h maxW maxH * (h : ℚ)
        ≤ ((maxH : ℚ) / (h : ℚ)) * (h : ℚ) :=
          mul_le_mul_of_nonneg_right hle (le_of_lt hh0)
      _ = (maxH : ℚ) := div_mul_cancel₀ _ (ne_of_gt hh0)
  · have hhle : (h : ℚ) ≤ (maxH : ℚ) := by exact_mod_cast not_lt.mp hex
    calc resize_scale w h maxW maxH * (h : ℚ)
        ≤ 1 * (h : ℚ) :=
          mul_le_mul_of_nonneg_right (resize_scale_le_one w h maxW maxH)
            (le_of_lt hh0)
      _ = (h : ℚ) := one_mul _
      _ ≤ (maxH : ℚ) := hhle

theorem scaled_dim_le (s : ℚ) (d : ℕ) (bnd : ℤ) (h1 : 0 < bnd)
    (hs : s * (d : ℚ) ≤ (bnd : ℚ)) :
    ((max 1 ((Int.floor (s * (d : ℚ))).toNat) : ℕ) : ℤ) ≤ bnd := by
  have hfl : Int.floor (s * (d : ℚ)) ≤ bnd := by
    have := Int.floor_le_floor hs
    rwa [Int.floor_intCast] at this
  push_cast [Nat.cast_max]
  rw [Int.ofNat_toNat]
  exact max_le (by exact_mod_cast h1) (max_le hfl (le_of_lt h1))

theorem scaled_dim_le_self (s : ℚ) (d : ℕ) (hd : 1 ≤ d) (hs : s ≤ 1) :
    max 1 ((Int.floor (s * (d : ℚ))).toNat) ≤ d := by
  apply max_le hd
  rw [Int.toNat_le]
  have hmul : s * (d : ℚ) ≤ (d : ℚ) := by
    calc s * (d : ℚ) ≤ 1 * (d : ℚ) :=
          mul_le_mul_of_nonneg_right hs (by positivity)
      _ = (d : ℚ) := one_mul _
  have := Int.floor_le_floor hmul
  rwa [Int.floor_natCast] at this

/-- C4: for an image of size (w, h) with w, h ≥ 1 and integer bounds, the
resize step uses exactly the uniform scale min(1, maxW/w, maxH/h) over
the set (positive) bounds; output dimensions never exceed a set bound
nor the source dimensions, and the image is returned unchanged when no
bound is set or it already fits. -/
theorem c4_resize_uniform_scale (img : Img) (maxW maxH : ℤ)
    (hw : 1 ≤ img.width) (hh : 1 ≤ img.height) :
    resize_scale img.width img.height maxW maxH
        = spec_scale img.width img.height maxW maxH
    ∧ (0 < maxW → ((resize_if_needed img maxW maxH).width : ℤ) ≤ maxW)
    ∧ (0 < maxH → ((resize_if_needed img maxW maxH).height : ℤ) ≤ maxH)
    ∧ (resize_if_needed img maxW maxH).width ≤ img.width
    ∧ (resize_if_needed img maxW maxH).height ≤ img.height
    ∧ ((maxW ≤ 0 ∨ (img.width : ℤ) ≤ maxW) ∧
        (maxH ≤ 0 ∨ (img.height : ℤ) ≤ maxH) →
        resize_if_needed img maxW maxH = img) := by
  refine ⟨resize_scale_eq_spec _ _ _ _ hw hh, ?_, ?_, ?_, ?_, ?_⟩
  · intro hW
    unfold resize_if_needed
    dsimp only
    split
    · next h0 => exact absurd h0.1 (not_le.mpr hW)
    · split
      · exact scaled_dim_le _ _ _ hW
          (resize_scale_mul_le_w img.width img.height maxW maxH hw hW)
      · next hns =>
          by_contra hgt
          push_neg at hgt
          have h1 := resize_scale_mul_le_w img.width img.height maxW maxH hw hW
          have h2 : (maxW : ℚ) < (img.width : ℚ) := by exact_mod_cast hgt
          have hw0 : (0 : ℚ) < (img.width : ℚ) := by exact_mod_cast hw
          have h3 : resize_scale img.width img.height maxW maxH *
              (img.width : ℚ) < 1 * (img.width : ℚ) := by
            rw [one_mul]; exact lt_of_le_of_lt h1 h2
          exact hns (lt_of_mul_lt_mul_right h3 (le_of_lt hw0))
  · intro hH
    unfold resize_if_needed
    dsimp only
    split
    · next h0 => exact absurd h0.2 (not_le.mpr hH)
    · split
      · exact scaled_dim_le _ _ _ hH
          (resize_scale_mul_le_h img.width img.height maxW maxH hh hH)
      · next hns =>
          by_contra hgt
          push_neg at hgt
          have h1 := resize_scale_mul_le_h img.width img.height maxW maxH hh hH
          have h2 : (maxH : ℚ) < (img.height : ℚ) := by exact_mod_cast hgt
          have hh0 : (0 : ℚ) < (img.height : ℚ) := by exact_mod_cast hh
          have h3 : resize_scale img.width img.height maxW maxH *
              (img.height : ℚ) < 1 * (img.height : ℚ) := by
            rw [one_mul]; exact lt_of_le_of_lt h1 h2
          exact hns (lt_of_mul_lt_mul_right h3 (le_of_lt hh0))
  · unfold resize_if_needed
    dsimp only
    split
    · exact le_rfl
    · split
      · exact scaled_dim_le_self _ _ hw
          (resize_scale_le_one img.width img.height maxW maxH)
      · exact le_rfl
  · unfold resize_if_needed
    dsimp only
    split
    · exact le_rfl
    · split
      · exact scaled_dim_le_self _ _ hh
          (resize_scale_le_one img.width img.height maxW maxH)
      · exact le_rfl
  · intro hfits
    have hc1 : ¬(0 < maxW ∧ maxW < (img.width : ℤ)) := by
      rintro ⟨h1, h2⟩
      rcases hfits.1 with h | h
      · exact absurd h1 (not_lt.mpr h)
      · exact absurd h2 (not_lt.mpr h)
    have hc2 : ¬(0 < maxH ∧ maxH < (img.height : ℤ)) := by
      rintro ⟨h1, h2⟩
      rcases hfits.2 with h | h
      · exact absurd h1 (not_lt.mpr h)
      · exact absurd h2 (not_lt.mpr h)
    have hs1 : resize_scale img.width img.height maxW maxH = 1 := by
      unfold resize_scale
      dsimp only
      rw [if_neg hc2, if_neg hc1]
    unfold resize_if_needed
    dsimp only
    split
    · rfl
    · simp [hs1]

/-- Witness for C4 at a 2000x1000 image bounded by maxW = 1600. -/
theorem c4_resize_uniform_scale_witness :
    resize_scale imgSample.width imgSample.height 1600 0
        = spec_scale imgSample.width imgSample.height 1600 0
    ∧ (0 < (1600 : ℤ) → ((resize_if_needed imgSample 1600 0).width : ℤ) ≤ 1600)
    ∧ (0 < (0 : ℤ) → ((resize_if_needed imgSample 1600 0).height : ℤ) ≤ 0)
    ∧ (resize_if_needed imgSample 1600 0).width ≤ imgSample.width
    ∧ (resize_if_needed imgSample 1600 0).height ≤ imgSample.height
    ∧ (((1600 : ℤ) ≤ 0 ∨ (imgSample.width : ℤ) ≤ 1600) ∧
        ((0 : ℤ) ≤ 0 ∨ (imgSample.height : ℤ) ≤ 0) →
        resize_if_needed imgSample 1600 0 = imgSample) :=
  c4_resize_uniform_scale imgSample 1600 0 (by decide) (by decide)

/-- C10: the resize step never produces a degenerate image: with source
dimensions at least 1 and any non-negative bound configuration, both
output dimensions stay at least 1. -/
theorem c10_resize_no_degenerate (img : Img) (maxW maxH : ℤ)
    (hw : 1 ≤ img.width) (hh : 1 ≤ img.height)
    (hW : 0 ≤ maxW) (hH : 0 ≤ maxH) :
    1 ≤ (resize_if_needed img maxW maxH).width
    ∧ 1 ≤ (resize_if_needed img maxW maxH).height := by
  unfold resize_if_needed
  dsimp only
  split
  · exact ⟨hw, hh⟩
  · split
    · exact ⟨le_max_left _ _, le_max_left _ _⟩
    · exact ⟨hw, hh⟩

/-! ### Unique-path lemmas (claim C9) -/

theorem decDigitsAux_eq_digits (fuel n : ℕ) (h : n ≤ fuel) :
    decDigitsAux fuel n = Nat.digits 10 n := by
  induction fuel generalizing n with
  | zero =>
      have : n = 0 := Nat.le_zero.mp h
      simp [decDigitsAux, this]
  | succ fuel ih =>
      by_cases h0 : n = 0
      · simp [decDigitsAux, h0]
      · have hpos : 0 < n := Nat.pos_of_ne_zero h0
        have hdiv : n / 10 ≤ fuel := by
          have : n / 10 < n := Nat.div_lt_self hpos (by norm_num)
          omega
        rw [Nat.digits_def' (by norm_num : (1 : ℕ) < 10) hpos]
        simp [decDigitsAux, h0, ih _ hdiv]

theorem decDigits_eq_digits (n : ℕ) : decDigits n = Nat.digits 10 n :=
  decDigitsAux_eq_digits n n le_rfl

theorem natName_injective : Function.Injective natName := by
  intro a b h
  unfold natName at h
  rw [decDigits_eq_digits, decDigits_eq_digits] at h
  have hmap : Function.Injective (fun d : ℕ => 48 + d) := fun x y hxy => by
    simpa using hxy
  have h2 := List.map_injective_iff.mpr hmap h
  exact Nat.digits.injective 10 (List.reverse_injective h2)

theorem numberedName_injective (stem suf : Name) :
    Function.Injective (numberedName stem suf) := by
  intro a b h
  unfold numberedName at h
  have h1 := List.append_cancel_left h
  have h2 : natName a ++ suf = natName b ++ suf := by
    simpa using h1
  exact natName_injective (List.append_cancel_right h2)

theorem unique_path_aux_not_mem (fs : Finset Name) (stem suf : Name) :
    ∀ fuel i, (∃ j, i ≤ j ∧ j < i + fuel ∧ numberedName stem suf j ∉ fs) →
      unique_path_aux fs stem suf fuel i ∉ fs := by
  intro fuel
  induction fuel with
  | zero =>
      rintro i ⟨j, hij, hlt, _⟩
      omega
  | succ fuel ih =>
      rintro i ⟨j, hij, hlt, hfree⟩
      unfold unique_path_aux
      dsimp only
      split
      · next hmem =>
          apply ih (i + 1)
          have hne : j ≠ i := by
            intro hji
            subst hji
            exact hfree hmem
          exact ⟨j, by omega, by omega, hfree⟩
      · next hmem => exact hmem

theorem exists_free_candidate (fs : Finset Name) (stem suf : Name) (i : ℕ) :
    ∃ j, i ≤ j ∧ j < i + (fs.card + 1) ∧ numberedName stem suf j ∉ fs := by
  by_contra hall
  push_neg at hall
  have hmap : ∀ a ∈ Finset.Ico i (i + (fs.card + 1)),
      numberedName stem suf a ∈ fs := by
    intro a ha
    rw [Finset.mem_Ico] at ha
    exact hall a ha.1 ha.2
  have hinj : Set.InjOn (numberedName stem suf)
      (Finset.Ico i (i + (fs.card + 1))) :=
    fun a _ b _ h => numberedName_injective stem suf h
  have hcard := Finset.card_le_card_of_injOn _ hmap hinj
  rw [Nat.card_Ico] at hcard
  omega

theorem unique_path_not_mem (fs : Finset Name) (p : Name) :
    unique_path fs p ∉ fs := by
  unfold unique_path
  split
  · exact unique_path_aux_not_mem fs _ _ (fs.card + 1) 2
      (exists_free_candidate fs _ _ 2)
  · next h => exact h

/-- C9: the rename-after-metadata step never collides.  The
disambiguated target computed through _unique_path does not exist
beforehand; consequently the step is exactly a move of the produced
JPEG onto that fresh target when the move succeeds (or a logged no-op
when it fails), the collision branch is never taken, and no existing
file other than the moved JPEG is removed or overwritten. -/
theorem rename_after_meta_step_eq (overwrite moveOk : Bool)
    (outDir finalName jpgP : Name) (fs : FS) :
    rename_after_meta_step overwrite moveOk outDir finalName jpgP fs
      = (if moveOk then
          (unique_path fs.files (pathJoin outDir (finalName ++ metaJpgSfx)),
           { fs with files :=
               (insert (unique_path fs.files (pathJoin outDir (finalName ++ metaJpgSfx)))
                 (fs.files.erase jpgP)) }, [])
        else (jpgP, fs, [DiagMsg.renameFailed])) := by
  have hfree : unique_path fs.files (pathJoin outDir (finalName ++ metaJpgSfx))
      ∉ fs.files := unique_path_not_mem _ _
  unfold rename_after_meta_step
  dsimp only
  rw [if_neg (fun hc => hfree hc.1), if_neg hfree]

theorem c9_rename_after_meta_safe (overwrite moveOk : Bool)
    (outDir finalName jpgP : Name) (fs : FS) :
    unique_path fs.files (pathJoin outDir (finalName ++ metaJpgSfx)) ∉ fs.files
    ∧ rename_after_meta_step overwrite moveOk outDir finalName jpgP fs
        = (if moveOk then
            (unique_path fs.files (pathJoin outDir (finalName ++ metaJpgSfx)),
             { fs with files :=
                 (insert (unique_path fs.files (pathJoin outDir (finalName ++ metaJpgSfx)))
                   (fs.files.erase jpgP)) }, [])
          else (jpgP, fs, [DiagMsg.renameFailed]))
    ∧ fs.files.erase jpgP ⊆
        (rename_after_meta_step overwrite moveOk outDir finalName jpgP fs).2.1.files := by
  have hfree : unique_path fs.files (pathJoin outDir (finalName ++ metaJpgSfx))
      ∉ fs.files := unique_path_not_mem _ _
  have heq := rename_after_meta_step_eq overwrite moveOk outDir finalName jpgP fs
  refine ⟨hfree, heq, ?_⟩
  rw [heq]
  cases moveOk
  · exact Finset.erase_subset _ _
  · exact Finset.subset_insert _ _

/-- Witness for C9: with the -meta name already taken the step still
finds a fresh target and performs a clean move. -/
theorem c9_rename_after_meta_safe_witness :
    unique_path fsTaken.files (pathJoin [111] ([97] ++ metaJpgSfx)) ∉ fsTaken.files
    ∧ rename_after_meta_step false true [111] [97]
        [111, 47, 97, 46, 106, 112, 103] fsTaken
        = (if true then
            (unique_path fsTaken.files (pathJoin [111] ([97] ++ metaJpgSfx)),
             { fsTaken with files :=
                 (insert (unique_path fsTaken.files (pathJoin [111] ([97] ++ metaJpgSfx)))
                   (fsTaken.files.erase [111, 47, 97, 46, 106, 112, 103])) }, [])
          else ([111, 47, 97, 46, 106, 112, 103], fsTaken, [DiagMsg.renameFailed]))
    ∧ fsTaken.files.erase [111, 47, 97, 46, 106, 112, 103] ⊆
        (rename_after_meta_step false true [111] [97]
          [111, 47, 97, 46, 106, 112, 103] fsTaken).2.1.files :=
  c9_rename_after_meta_safe false true [111] [97]
    [111, 47, 97, 46, 106, 112, 103] fsTaken

/-- Witness for C10 at the 3x1000 image bounded by maxH = 1. -/
theorem c10_resize_no_degenerate_witness :
    1 ≤ (resize_if_needed imgThin 0 1).width
    ∧ 1 ≤ (resize_if_needed imgThin 0 1).height :=
  c10_resize_no_degenerate imgThin 0 1 (by decide) (by decide) (by decide)
    (by decide)

/-! ### GPS conversion (claim C5) -/

/-- C5: GPS tags are appended exactly when both latitude and longitude
parse as numbers; a negative latitude yields reference S with the
unsigned magnitude and a negative longitude reference W, non-negative
values yield N and E; the altitude tag is appended only when the
altitude is numeric; concretely -12.0464 and -77.0428 convert to
(S, 12.0464) and (W, 77.0428). -/
theorem c5_gps_conversion :
    (∀ la lo al, gps_args la lo al ≠ [] ↔ la.isNum = true ∧ lo.isNum = true)
    ∧ (∀ v : ℚ, v < 0 →
        gps_ref_val (StrVal.num v) true = (some 'S', some |v|)
        ∧ gps_ref_val (StrVal.num v) false = (some 'W', some |v|))
    ∧ (∀ v : ℚ, 0 ≤ v →
        gps_ref_val (StrVal.num v) true = (some 'N', some |v|)
        ∧ gps_ref_val (StrVal.num v) false = (some 'E', some |v|))
    ∧ (∀ (x y : ℚ) (al : StrVal),
        (∃ a, GpsTag.altVal a ∈ gps_args (StrVal.num x) (StrVal.num y) al)
          ↔ al.isNum = true)
    ∧ gps_args (StrVal.num (-12.0464)) (StrVal.num (-77.0428)) StrVal.blank
        = [GpsTag.latRef 'S', GpsTag.latVal 12.0464,
           GpsTag.lonRef 'W', GpsTag.lonVal 77.0428] := by
  refine ⟨?_, ?_, ?_, ?_, ?_⟩
  · intro la lo al
    cases la <;> cases lo <;> simp [gps_args, gps_ref_val, StrVal.isNum]
  · intro v hv
    constructor <;> simp [gps_ref_val, not_le.mpr hv]
  · intro v hv
    constructor <;> simp [gps_ref_val, hv]
  · intro x y al
    cases al <;> simp [gps_args, gps_ref_val, StrVal.isNum]
  · norm_num [gps_args, gps_ref_val]

/-- Witness for C5 at the spec's own example coordinates. -/
theorem c5_gps_conversion_witness :
    gps_ref_val (StrVal.num (-12.0464)) true = (some 'S', some |(-12.0464 : ℚ)|)
    ∧ gps_ref_val (StrVal.num (-77.0428)) false
        = (some 'W', some |(-77.0428 : ℚ)|) :=
  ⟨(c5_gps_conversion.2.1 (-12.0464) (by norm_num)).1,
   (c5_gps_conversion.2.1 (-77.0428) (by norm_num)).2⟩

/-! ### Transparency flattening (claim C8) -/

/-- C8 fails on the code: flattening a 1x1 grayscale (mode L) image with
no alpha channel is not a no-op, because the no-alpha branch still
converts any non-RGB mode to RGB. -/
theorem c8_counterexample : ¬ c8_claim := by
  intro h
  exact absurd (h imgGrayL (by decide)) (by decide)

/-- C8 corrected: on an image with no alpha channel the flattening
operation is the identity exactly on RGB-mode inputs; any other no-alpha
mode is returned converted to RGB with the same dimensions. -/
theorem c8_flatten_noop_amended (img : Img) (h : img.hasAlphaBand = false) :
    (img.mode = Mode.RGB → force_white_background_if_transparent img = img)
    ∧ (force_white_background_if_transparent img).mode = Mode.RGB
    ∧ (force_white_background_if_transparent img).width = img.width
    ∧ (force_white_background_if_transparent img).height = img.height
    ∧ (img.mode ≠ Mode.RGB →
        force_white_background_if_transparent img = img.convertRGB) := by
  by_cases hm : img.mode = Mode.RGB <;>
    simp [force_white_background_if_transparent, h, hm, Img.convertRGB]

/-- Witness for C8 (amended) at the 1x1 grayscale image. -/
theorem c8_flatten_noop_amended_witness :
    imgGrayL.hasAlphaBand = false
    ∧ ((imgGrayL.mode = Mode.RGB →
          force_white_background_if_transparent imgGrayL = imgGrayL)
      ∧ (force_white_background_if_transparent imgGrayL).mode = Mode.RGB
      ∧ (force_white_background_if_transparent imgGrayL).width = imgGrayL.width
      ∧ (force_white_background_if_transparent imgGrayL).height = imgGrayL.height
      ∧ (imgGrayL.mode ≠ Mode.RGB →
          force_white_background_if_transparent imgGrayL = imgGrayL.convertRGB)) :=
  ⟨by decide, c8_flatten_noop_amended imgGrayL (by decide)⟩

/-! ### Export materialization (claims C1, C2, C3) -/

theorem export_ok_eq (src : SrcPath) (outDir : Name) (jpgQ webpQ : ℕ)
    (convertPng forceWhite : Bool) (maxW maxH : ℤ) (overwrite : Bool)
    (finalStem : Option Name) (decoded : Option Img) (hasCms : Bool) (fs : FS)
    (hok : (export_jpg_and_webp src outDir jpgQ webpQ convertPng forceWhite
        maxW maxH overwrite finalStem decoded hasCms fs).1.isOk = true) :
    ∃ imgJ,
      export_jpg_and_webp src outDir jpgQ webpQ convertPng forceWhite maxW maxH
          overwrite finalStem decoded hasCms fs
        = (Except.ok (jpgPathOf outDir finalStem src.stem,
            webpPathOf outDir finalStem src.stem, imgJ),
           { files := insert (jpgPathOf outDir finalStem src.stem) fs.files,
             dirs := insert outDir fs.dirs },
           [Ev.mkdirEnsure outDir, Ev.decode src.fullName,
            Ev.save (jpgPathOf outDir finalStem src.stem) Fmt.jpeg]) := by
  unfold export_jpg_and_webp at hok ⊢
  dsimp only at hok ⊢
  split at hok
  · simp [Except.isOk, Except.toBool] at hok
  · next hcond =>
      cases decoded with
      | none => simp [Except.isOk, Except.toBool] at hok
      | some img0 =>
          rw [if_neg hcond]
          exact ⟨_, rfl⟩

/-- C2: when overwrite is disabled and the computed primary target
already exists (hence its directory exists too), the export fails with
the collision error before any decode or encode event and the state is
returned unchanged: the only event is the mkdir that, on the existing
directory, creates nothing. -/
theorem c2_collision_preflight (src : SrcPath) (outDir : Name)
    (jpgQ webpQ : ℕ) (convertPng forceWhite : Bool) (maxW maxH : ℤ)
    (finalStem : Option Name) (decoded : Option Img) (hasCms : Bool) (fs : FS)
    (hex : jpgPathOf outDir finalStem src.stem ∈ fs.files)
    (hdir : outDir ∈ fs.dirs) :
    export_jpg_and_webp src outDir jpgQ webpQ convertPng forceWhite maxW maxH
        false finalStem decoded hasCms fs
      = (Except.error (ExportErr.collision (jpgPathOf outDir finalStem src.stem)),
         fs, [Ev.mkdirEnsure outDir]) := by
  unfold export_jpg_and_webp
  dsimp only
  rw [if_pos ⟨rfl, hex⟩]
  have hd : insert outDir fs.dirs = fs.dirs := Finset.insert_eq_self.mpr hdir
  simp [hd]

/-- Witness for C2: exporting "i/a.png" to directory "o" where "o/a.jpg"
already exists, with overwrite disabled. -/
theorem c2_collision_preflight_witness :
    export_jpg_and_webp srcPng [111] 86 82 true true 0 0 false none
        (some imgSample) false fsWithJpg
      = (Except.error (ExportErr.collision (jpgPathOf [111] none srcPng.stem)),
         fsWithJpg, [Ev.mkdirEnsure [111]]) :=
  c2_collision_preflight srcPng [111] 86 82 true true 0 0 none
    (some imgSample) false fsWithJpg (by decide) (by decide)

/-- C1 fails on the code: a successful export of "i/a.png" saves the
JPEG directly at the final path, with no temporary file and no rename
anywhere in its trace. -/
theorem c1_counterexample : ¬ c1_claim := by
  intro h
  obtain ⟨tmp, fmt, hst, hrep, hnosave⟩ :=
    h srcPng [111] 86 82 true true 0 0 true none (some imgSample) false
      fsEmpty (by decide)
  exact hnosave (jpgPathOf [111] none srcPng.stem) Fmt.jpeg (by decide)

/-- C1 corrected: only convert_to_webp (optimizador_seo.py) materializes
atomically, encoding into the sibling temporary built by appending
".tmp" to the final path and putting it in place with a single
os.replace, leaving the final path present and no temporary behind;
export_jpg_and_webp (optimizador_seo2.py) instead writes the JPEG
directly to the final path: its successful trace is mkdir, decode,
direct save, with no temporary write and no rename. -/
theorem c1_materialization_amended (src : SrcPath) (outDir : Name)
    (jpgQ webpQ : ℕ) (convertPng forceWhite : Bool) (maxW maxH : ℤ)
    (overwrite : Bool) (finalStem : Option Name) (decoded : Option Img)
    (hasCms : Bool) (fs : FS) (csrc : SrcPath) (ob : Option Name)
    (cimg : Img) (cfs : FS)
    (hok : (export_jpg_and_webp src outDir jpgQ webpQ convertPng forceWhite
        maxW maxH overwrite finalStem decoded hasCms fs).1.isOk = true) :
    ((convert_to_webp csrc ob cimg cfs).2.2
        = [Ev.decode csrc.fullName,
           Ev.saveTmp ((convert_to_webp csrc ob cimg cfs).1 ++ extTmp) Fmt.webp,
           Ev.replace ((convert_to_webp csrc ob cimg cfs).1 ++ extTmp)
             (convert_to_webp csrc ob cimg cfs).1]
      ∧ (∀ p f, Ev.save p f ∉ (convert_to_webp csrc ob cimg cfs).2.2)
      ∧ (convert_to_webp csrc ob cimg cfs).1
          ∈ (convert_to_webp csrc ob cimg cfs).2.1.files
      ∧ ((convert_to_webp csrc ob cimg cfs).1 ++ extTmp)
          ∉ (convert_to_webp csrc ob cimg cfs).2.1.files)
    ∧ ((export_jpg_and_webp src outDir jpgQ webpQ convertPng forceWhite maxW
          maxH overwrite finalStem decoded hasCms fs).2.2
        = [Ev.mkdirEnsure outDir, Ev.decode src.fullName,
           Ev.save (jpgPathOf outDir finalStem src.stem) Fmt.jpeg]
      ∧ (∀ t d, Ev.replace t d ∉ (export_jpg_and_webp src outDir jpgQ webpQ
          convertPng forceWhite maxW maxH overwrite finalStem decoded hasCms
          fs).2.2)
      ∧ (∀ p f, Ev.saveTmp p f ∉ (export_jpg_and_webp src outDir jpgQ webpQ
          convertPng forceWhite maxW maxH overwrite finalStem decoded hasCms
          fs).2.2)) := by
  constructor
  · refine ⟨rfl, ?_, ?_, ?_⟩
    · intro p f
      simp [convert_to_webp]
    · simp [convert_to_webp]
    · simp [convert_to_webp, Finset.mem_insert, Finset.mem_erase, extTmp]
  · obtain ⟨imgJ, heq⟩ := export_ok_eq src outDir jpgQ webpQ convertPng
      forceWhite maxW maxH overwrite finalStem decoded hasCms fs hok
    rw [heq]
    refine ⟨rfl, ?_, ?_⟩
    · intro t d
      simp
    · intro p f
      simp

/-- Witness for C1 (amended) at the sample export and conversion. -/
theorem c1_materialization_amended_witness :
    ((convert_to_webp srcPng none imgSample fsEmpty).2.2
        = [Ev.decode srcPng.fullName,
           Ev.saveTmp ((convert_to_webp srcPng none imgSample fsEmpty).1 ++ extTmp)
             Fmt.webp,
           Ev.replace ((convert_to_webp srcPng none imgSample fsEmpty).1 ++ extTmp)
             (convert_to_webp srcPng none imgSample fsEmpty).1]
      ∧ (∀ p f, Ev.save p f ∉ (convert_to_webp srcPng none imgSample fsEmpty).2.2)
      ∧ (convert_to_webp srcPng none imgSample fsEmpty).1
          ∈ (convert_to_webp srcPng none imgSample fsEmpty).2.1.files
      ∧ ((convert_to_webp srcPng none imgSample fsEmpty).1 ++ extTmp)
          ∉ (convert_to_webp srcPng none imgSample fsEmpty).2.1.files)
    ∧ ((export_jpg_and_webp srcPng [111] 86 82 true true 0 0 true none
          (some imgSample) false fsEmpty).2.2
        = [Ev.mkdirEnsure [111], Ev.decode srcPng.fullName,
           Ev.save (jpgPathOf [111] none srcPng.stem) Fmt.jpeg]
      ∧ (∀ t d, Ev.replace t d ∉ (export_jpg_and_webp srcPng [111] 86 82 true
          true 0 0 true none (some imgSample) false fsEmpty).2.2)
      ∧ (∀ p f, Ev.saveTmp p f ∉ (export_jpg_and_webp srcPng [111] 86 82 true
          true 0 0 true none (some imgSample) false fsEmpty).2.2)) :=
  c1_materialization_amended srcPng [111] 86 82 true true 0 0 true none
    (some imgSample) false fsEmpty srcPng none imgSample fsEmpty (by decide)

/-- C3 fails on the code: exporting a PNG source with the PNG-to-JPEG
policy disabled still saves the primary output as JPEG, not PNG. -/
theorem c3_counterexample : ¬ c3_claim := by
  intro h
  have hcl := h srcPng [111] 86 82 false true 0 0 true none (some imgSample)
    false fsEmpty (by decide) (jpgPathOf [111] none srcPng.stem) Fmt.jpeg
    (by decide)
  exact absurd hcl (by decide)

/-- C3 corrected: the primary output of every successful export is
encoded as JPEG at the ".jpg" path, for every source format and
independently of the convert_png_to_jpg flag, which the function accepts
but never reads. -/
theorem c3_primary_always_jpeg (src : SrcPath) (outDir : Name)
    (jpgQ webpQ : ℕ) (convertPng forceWhite : Bool) (maxW maxH : ℤ)
    (overwrite : Bool) (finalStem : Option Name) (decoded : Option Img)
    (hasCms : Bool) (fs : FS)
    (hok : (export_jpg_and_webp src outDir jpgQ webpQ convertPng forceWhite
        maxW maxH overwrite finalStem decoded hasCms fs).1.isOk = true) :
    Ev.save (jpgPathOf outDir finalStem src.stem) Fmt.jpeg
      ∈ (export_jpg_and_webp src outDir jpgQ webpQ convertPng forceWhite maxW
          maxH overwrite finalStem decoded hasCms fs).2.2
    ∧ ∀ p f, Ev.save p f ∈ (export_jpg_and_webp src outDir jpgQ webpQ
          convertPng forceWhite maxW maxH overwrite finalStem decoded hasCms
          fs).2.2 →
        p = jpgPathOf outDir finalStem src.stem ∧ f = Fmt.jpeg := by
  obtain ⟨imgJ, heq⟩ := export_ok_eq src outDir jpgQ webpQ convertPng
    forceWhite maxW maxH overwrite finalStem decoded hasCms fs hok
  rw [heq]
  constructor
  · simp
  · intro p f hp
    simpa using hp

/-- Witness for C3 (amended): the PNG sample with conversion disabled
still yields a JPEG save. -/
theorem c3_primary_always_jpeg_witness :
    Ev.save (jpgPathOf [111] none srcPng.stem) Fmt.jpeg
      ∈ (export_jpg_and_webp srcPng [111] 86 82 false true 0 0 true none
          (some imgSample) false fsEmpty).2.2
    ∧ ∀ p f, Ev.save p f ∈ (export_jpg_and_webp srcPng [111] 86 82 false true
          0 0 true none (some imgSample) false fsEmpty).2.2 →
        p = jpgPathOf [111] none srcPng.stem ∧ f = Fmt.jpeg :=
  c3_primary_always_jpeg srcPng [111] 86 82 false true 0 0 true none
    (some imgSample) false fsEmpty (by decide)

/-! ### Metadata failures are non-fatal (claim C6) -/

/-- C6: once the export of an item succeeds, the item terminates as a
success whatever the exit codes of the metadata-tool invocations are:
each performed invocation with a non-zero exit contributes its logged
diagnostic, the worker log closes the item with the success line and
never the failure line, and with the source kept the item's JPEG is
present in the final state. -/
theorem c6_metadata_failures_nonfatal (job : Job) (env : ItemEnv) (it : Item)
    (fs : FS)
    (hok : (export_jpg_and_webp it.src job.outDir job.jpgQ job.webpQ
        job.convertPng job.forceWhite job.maxW job.maxH job.overwrite
        (some (if it.finalName = [] then it.src.stem else it.finalName))
        env.decoded job.hasCms fs).1.isOk = true) :
    (worker_item_core job env it fs).1 = true
    ∧ (env.exifCode ExifStep.metaJpg ≠ 0 →
        DiagMsg.exifWarn ExifStep.metaJpg ∈ (worker_item_core job env it fs).2.2.2)
    ∧ (job.cleanAi = true → env.exifCode ExifStep.cleanJpg ≠ 0 →
        DiagMsg.exifWarn ExifStep.cleanJpg ∈ (worker_item_core job env it fs).2.2.2)
    ∧ (job.setDpi96 = true → env.exifCode ExifStep.dpiJpg ≠ 0 →
        DiagMsg.exifWarn ExifStep.dpiJpg ∈ (worker_item_core job env it fs).2.2.2)
    ∧ (∀ idx, LogMsg.itemOk ∈ (worker_item job env idx it fs).2.2
        ∧ LogMsg.itemError ∉ (worker_item job env idx it fs).2.2)
    ∧ (job.keepOriginal = true →
        (worker_item_core job env it fs).2.1
          ∈ (worker_item_core job env it fs).2.2.1.files) := by
  obtain ⟨imgJ, heq⟩ := export_ok_eq it.src job.outDir job.jpgQ job.webpQ
    job.convertPng job.forceWhite job.maxW job.maxH job.overwrite
    (some (if it.finalName = [] then it.src.stem else it.finalName))
    env.decoded job.hasCms fs hok
  have hs : (worker_item_core job env it fs).1 = true := by
    unfold worker_item_core
    dsimp only
    rw [heq]
  refine ⟨hs, ?_, ?_, ?_, ?_, ?_⟩
  · intro hm
    unfold worker_item_core
    dsimp only
    rw [heq]
    dsimp only
    simp [exifDiag, hm]
  · intro hc hm
    unfold worker_item_core
    dsimp only
    rw [heq]
    dsimp only
    simp [exifDiag, hc, hm]
  · intro hd hm
    unfold worker_item_core
    dsimp only
    rw [heq]
    dsimp only
    simp [exifDiag, hd, hm]
  · intro idx
    unfold worker_item
    dsimp only
    constructor
    · simp [hs]
    · simp [hs]
  · intro hk
    unfold worker_item_core
    dsimp only
    rw [heq]
    dsimp only
    rw [if_pos hk]
    dsimp only
    split
    · rw [rename_after_meta_step_eq]
      split
      · simp [Finset.mem_insert_self]
      · repeat' split
        all_goals simp [Finset.mem_insert]
    · repeat' split
      all_goals simp [Finset.mem_insert]

/-- Witness for C6: every exiftool invocation exits 1 yet the item
succeeds and the JPEG metadata diagnostic is logged. -/
theorem c6_metadata_failures_nonfatal_witness :
    (worker_item_core jobSample envAllFail itemSample fsEmpty).1 = true
    ∧ DiagMsg.exifWarn ExifStep.metaJpg
        ∈ (worker_item_core jobSample envAllFail itemSample fsEmpty).2.2.2 :=
  ⟨(c6_metadata_failures_nonfatal jobSample envAllFail itemSample fsEmpty
      (by decide)).1,
   (c6_metadata_failures_nonfatal jobSample envAllFail itemSample fsEmpty
      (by decide)).2.1 (by decide)⟩

/-! ### Batch orchestration (claim C7) -/

theorem startIdx_map_diag (l : List DiagMsg) :
    (l.map LogMsg.diag).filterMap LogMsg.startIdx = [] := by
  induction l with
  | nil => rfl
  | cons d t ih => simp [LogMsg.startIdx, ih]

theorem filter_isOk_map_diag (l : List DiagMsg) :
    (l.map LogMsg.diag).filter LogMsg.isOkLine = [] := by
  induction l with
  | nil => rfl
  | cons d t ih => simp [LogMsg.isOkLine, ih]

theorem filter_isErr_map_diag (l : List DiagMsg) :
    (l.map LogMsg.diag).filter LogMsg.isErrLine = [] := by
  induction l with
  | nil => rfl
  | cons d t ih => simp [LogMsg.isErrLine, ih]

theorem worker_item_log_startIdx (job : Job) (env : ItemEnv) (idx : ℕ)
    (it : Item) (fs : FS) :
    ((worker_item job env idx it fs).2.2).filterMap LogMsg.startIdx = [idx] := by
  unfold worker_item
  dsimp only
  split <;>
    simp [LogMsg.startIdx, List.filterMap_append, startIdx_map_diag]

theorem worker_item_filter_ok (job : Job) (env : ItemEnv) (idx : ℕ)
    (it : Item) (fs : FS) :
    ((worker_item job env idx it fs).2.2).filter LogMsg.isOkLine
      = (if (worker_item job env idx it fs).1 then [LogMsg.itemOk] else []) := by
  unfold worker_item
  dsimp only
  split <;>
    simp [LogMsg.isOkLine, List.filter_append, filter_isOk_map_diag]

theorem worker_item_filter_err (job : Job) (env : ItemEnv) (idx : ℕ)
    (it : Item) (fs : FS) :
    ((worker_item job env idx it fs).2.2).filter LogMsg.isErrLine
      = (if (worker_item job env idx it fs).1 then [] else [LogMsg.itemError]) := by
  unfold worker_item
  dsimp only
  split <;>
    simp [LogMsg.isErrLine, List.filter_append, filter_isErr_map_diag]

theorem worker_run_aux_spec (job : Job) (env : ℕ → ItemEnv)
    (items : List Item) :
    ∀ idx fs,
      (worker_run_aux job env (fun _ => false) items idx fs).1
          + (worker_run_aux job env (fun _ => false) items idx fs).2.1
        = items.length
      ∧ ((worker_run_aux job env (fun _ => false) items idx fs).2.2.1).filterMap
          LogMsg.startIdx = List.range' idx items.length
      ∧ (worker_run_aux job env (fun _ => false) items idx fs).1
        = (((worker_run_aux job env (fun _ => false) items idx fs).2.2.1).filter
            LogMsg.isOkLine).length
      ∧ (worker_run_aux job env (fun _ => false) items idx fs).2.1
        = (((worker_run_aux job env (fun _ => false) items idx fs).2.2.1).filter
            LogMsg.isErrLine).length := by
  induction items with
  | nil =>
      intro idx fs
      simp [worker_run_aux]
  | cons it rest ih =>
      intro idx fs
      obtain ⟨ih1, ih2, ih3, ih4⟩ :=
        ih (idx + 1) (worker_item job (env idx) idx it fs).2.1
      unfold worker_run_aux
      dsimp only
      simp only [Bool.false_eq_true, if_false]
      refine ⟨?_, ?_, ?_, ?_⟩
      · simp only [List.length_cons]
        split <;> omega
      · rw [List.filterMap_append, worker_item_log_startIdx, ih2,
          List.length_cons, List.range'_succ]
        rfl
      · rw [List.filter_append, List.length_append, worker_item_filter_ok,
          ← ih3]
        split <;> simp
      · rw [List.filter_append, List.length_append, worker_item_filter_err,
          ← ih4]
        split <;> simp

/-- C7: items are visited in the order given by the work list (one
opening log line per item, indices in order), a failure never stops the
loop (successes plus failures always partition the whole list, counted
by their log lines), the run closes with the aggregate totals line;
concretely a batch of three items whose second source is undecodable
ends with 2 successes, 1 failure, and the third item still processed. -/
theorem c7_batch_order_isolation_counts :
    (∀ (job : Job) (env : ℕ → ItemEnv) (items : List Item) (fs : FS),
      (worker_run job env (fun _ => false) items fs).ok
          + (worker_run job env (fun _ => false) items fs).fail = items.length
      ∧ ((worker_run job env (fun _ => false) items fs).log).filterMap
          LogMsg.startIdx = List.range' 1 items.length
      ∧ (worker_run job env (fun _ => false) items fs).ok
        = (((worker_run job env (fun _ => false) items fs).log).filter
            LogMsg.isOkLine).length
      ∧ (worker_run job env (fun _ => false) items fs).fail
        = (((worker_run job env (fun _ => false) items fs).log).filter
            LogMsg.isErrLine).length
      ∧ ((worker_run job env (fun _ => false) items fs).log).getLast?
        = some (LogMsg.totals (worker_run job env (fun _ => false) items fs).ok
            (worker_run job env (fun _ => false) items fs).fail))
    ∧ (worker_run jobSample envTriple (fun _ => false) itemsTriple fsEmpty).log
        = [LogMsg.itemStart 1, LogMsg.itemOk, LogMsg.itemStart 2,
           LogMsg.itemError, LogMsg.itemStart 3, LogMsg.itemOk,
           LogMsg.totals 2 1]
    ∧ (worker_run jobSample envTriple (fun _ => false) itemsTriple fsEmpty).ok = 2
    ∧ (worker_run jobSample envTriple (fun _ => false) itemsTriple fsEmpty).fail = 1 := by
  refine ⟨?_, by decide, by decide, by decide⟩
  intro job env items fs
  obtain ⟨h1, h2, h3, h4⟩ := worker_run_aux_spec job env items 1 fs
  unfold worker_run
  dsimp only
  refine ⟨h1, ?_, ?_, ?_, ?_⟩
  · rw [List.filterMap_append, h2]
    simp [LogMsg.startIdx]
  · rw [List.filter_append]
    simp [LogMsg.isOkLine, h3]
  · rw [List.filter_append]
    simp [LogMsg.isErrLine, h4]
  · exact List.getLast?_concat _

end ImagenesSeo
